import Mathlib

/-!
Verification of the Gym.ts environment core: the categorical sampling engine,
the `DiscreteEnv` MDP simulator, the `Space` hierarchy, the wrapper family,
`GoalEnv`'s observation-space check, and the environment registry.

Numbers produced by the pseudo-random sources are modelled as rationals;
a seeded source is an infinite stream of uniform draws together with a cursor,
so every call to `real()` is explicit in the state threading.
-/

namespace Gym

/-- A seeded pseudo-random source (`Random` from the runtime library):
an infinite stream of uniform variates and the position of the next draw. -/
structure Random where
  stream : ℕ → ℚ
  pos : ℕ

/-- `random.real()`: return the next uniform variate and advance the cursor. -/
def Random.real (r : Random) : ℚ × Random :=
  (r.stream r.pos, ⟨r.stream, r.pos + 1⟩)

/-- Inclusive running prefix sums, the `cumsum` operation of the numeric-array
library: `cumsumFrom acc [x0, x1, ...] = [acc+x0, acc+x0+x1, ...]`. -/
def cumsumFrom : ℚ → List ℚ → List ℚ
  | _, [] => []
  | acc, x :: xs => (acc + x) :: cumsumFrom (acc + x) xs

/-- `NdArray.cumsum` on a one-dimensional array. -/
def cumsum (l : List ℚ) : List ℚ := cumsumFrom 0 l

/-- Index of the first occurrence of the maximum, scanning left to right
(`NdArray.argmax` semantics; strict `>` keeps the earlier index on ties). -/
def argmaxFrom : List ℚ → ℕ → ℚ → ℕ → ℕ
  | [], _, _, best => best
  | x :: xs, i, bv, bi =>
      if bv < x then argmaxFrom xs (i + 1) x i else argmaxFrom xs (i + 1) bv bi

/-- `NdArray.argmax` on a one-dimensional array (0 on the empty array). -/
def argmax : List ℚ → ℕ
  | [] => 0
  | x :: xs => argmaxFrom xs 1 x 0

/-- The `map` closure of `categoricalSample`: walk the cumulative sums left to
right and replace each element `v` by the indicator of `v > random.real()`.
The call to `random.real()` sits inside the closure, so one fresh variate is
drawn per element. -/
def mapIndicator : List ℚ → Random → List ℚ × Random
  | [], r => ([], r)
  | v :: vs, r =>
      let (u, r1) := r.real
      let (rest, r2) := mapIndicator vs r1
      ((if u < v then 1 else 0) :: rest, r2)

/-- `categoricalSample(probN, random)` as the source writes it:
`n = probN.cumsum(); return n.map(v => v > random.real() ? 1 : 0).argmax()`. -/
def categoricalSample (probN : List ℚ) (random : Random) : ℕ × Random :=
  let n := cumsum probN
  let (ind, r1) := mapIndicator n random
  (argmax ind, r1)

/-- Modelled from the spec: the sampler the spec describes (and the doc comment
of `categoricalSample` promises) — compute the cumulative sums, draw exactly one
uniform variate `u`, and return the first index `i` with `cumsum[i] > u`. -/
def inverseCdfSample (probN : List ℚ) (random : Random) : ℕ × Random :=
  let n := cumsum probN
  let (u, r1) := random.real
  (n.findIdx (fun v => u < v), r1)

/-- Array indexing as JavaScript performs it on a possibly negative integer
index: `undefined` (here `none`) when the index is out of range. -/
def jsIndex {α : Type} (l : List α) (i : ℤ) : Option α :=
  if i < 0 then none else l.get? i.toNat

/-- `Discrete.contains(x)` from `spaces/discrete.ts`: `x >= 0 && x < this.n`. -/
def Discrete.contains (n : ℕ) (x : ℤ) : Bool :=
  0 ≤ x && x < (n : ℤ)

/-- `Discrete.equal(other)` from `spaces/discrete.ts`: other is a `Discrete`
with the same `n` (both sides being `Discrete` here, only `n` remains). -/
def Discrete.equal (n m : ℕ) : Bool := n == m

/-- One `(probability, nextState, reward, done)` entry of a `P[s][a]` row. -/
structure Outcome where
  p : ℚ
  nextState : ℕ
  reward : ℚ
  done : Bool
deriving Repr, DecidableEq

/-- The `info` record returned by `DiscreteEnv.step`: `{ prob: p }`. -/
structure Info where
  prob : ℚ
deriving Repr, DecidableEq

/-- The `(observation, reward, done, info)` tuple of one step. -/
structure StepResult where
  observation : List ℕ
  reward : ℚ
  done : Bool
  info : Info
deriving Repr, DecidableEq

/-- The mutable state of a `DiscreteEnv` together with its construction data:
state count `nS`, action count `nA`, transition table `P`, initial-state
distribution `isd`, the seeded source, the last action and the current state. -/
structure DiscreteEnvState where
  nS : ℕ
  nA : ℕ
  P : List (List (List Outcome))
  isd : List ℚ
  random : Random
  lastAction : Option ℤ
  s : ℕ

/-- `DiscreteEnv.seed(seed)`: build a fresh source deterministically from the
seed via `Seeding.random` (the engine family `g` models the PRNG library:
seed value to stream of uniforms) and return `[seed1]`. -/
def DiscreteEnvState.seed (g : ℕ → ℕ → ℚ) (e : DiscreteEnvState) (seed : ℕ) :
    List ℕ × DiscreteEnvState :=
  ([seed], { e with random := ⟨g seed, 0⟩ })

/-- `DiscreteEnv.reset()`: resample `s` from `isd`, clear `lastAction`,
return the observation `[s]`. -/
def DiscreteEnvState.reset (e : DiscreteEnvState) : List ℕ × DiscreteEnvState :=
  let ir := categoricalSample e.isd e.random
  ([ir.1], { e with s := ir.1, random := ir.2, lastAction := none })

/-- `DiscreteEnv.step(action)`. The lookups `this.P[this.s][action]` and the
destructuring of `transitions[i]` throw on `undefined` in JavaScript; every
throw happens before the assignments to `this.s`/`this.lastAction`, so an
error leaves the state untouched (second component returned unchanged). -/
def DiscreteEnvState.step (e : DiscreteEnvState) (action : ℤ) :
    Except String StepResult × DiscreteEnvState :=
  match e.P.get? e.s with
  | none => (.error "TypeError: this.P[this.s] is undefined", e)
  | some row =>
    match jsIndex row action with
    | none => (.error "TypeError: transitions is undefined", e)
    | some transitions =>
      let ir := categoricalSample (transitions.map (·.p)) e.random
      match transitions.get? ir.1 with
      | none => (.error "TypeError: transitions[i] is undefined", e)
      | some o =>
        (.ok { observation := [o.nextState], reward := o.reward, done := o.done,
               info := ⟨o.p⟩ },
         { e with s := o.nextState, lastAction := some action, random := ir.2 })

/-- Run a finite action sequence through `step`, collecting the step results;
a raised error aborts the run (the exception propagates to the caller). -/
def runSteps : DiscreteEnvState → List ℤ → Except String (List StepResult)
  | _, [] => .ok []
  | e, a :: as =>
    match e.step a with
    | (.error m, _) => .error m
    | (.ok st, e') => (runSteps e' as).map (st :: ·)

/-- One run: `seed(k)` then `reset()` then the action sequence; the trace is
the initial observation plus the step results. -/
def trajectory (g : ℕ → ℕ → ℚ) (e : DiscreteEnvState) (k : ℕ) (acts : List ℤ) :
    List ℕ × Except String (List StepResult) :=
  let e1 := (e.seed g k).2
  let (obs, e2) := e1.reset
  (obs, runSteps e2 acts)

/-- A pure-function wrapper layer: an action transform applied before the
inner `step`, and observation/reward transforms applied to what comes back. -/
structure PureWrapper where
  actionT : ℤ → ℤ
  obsT : List ℕ → List ℕ
  rewardT : ℚ → ℚ

/-- Apply one wrapper layer's output transforms to a step result. -/
def PureWrapper.applyOut (w : PureWrapper) (st : StepResult) : StepResult :=
  { st with observation := w.obsT st.observation, reward := w.rewardT st.reward }

/-- Wrap one pure layer around a trajectory function: transform the actions on
the way in, the initial observation and the step results on the way out. -/
def wrapTraj (w : PureWrapper)
    (t : List ℤ → List ℕ × Except String (List StepResult)) :
    List ℤ → List ℕ × Except String (List StepResult) :=
  fun acts =>
    let (obs, res) := t (acts.map w.actionT)
    (w.obsT obs, res.map (List.map w.applyOut))

/-- The trajectory seen through a stack of pure wrappers (head outermost). -/
def wrappedTrajectory (g : ℕ → ℕ → ℚ) (stack : List PureWrapper)
    (e : DiscreteEnvState) (k : ℕ) (acts : List ℤ) :
    List ℕ × Except String (List StepResult) :=
  (stack.foldr wrapTraj (trajectory g e k)) acts

/-- The global `Math` random source that `Math.random()`/`Math.randint()`
draw from, modelled like `Random`: a stream of uniforms and a cursor. -/
structure MathRandom where
  stream : ℕ → ℚ
  pos : ℕ

/-- `Math.random()`: next uniform draw from the global source. -/
def MathRandom.random (m : MathRandom) : ℚ × MathRandom :=
  (m.stream m.pos, ⟨m.stream, m.pos + 1⟩)

/-- `Math.randint(n)` from the runtime extension library: an integer in
`[0, n)` obtained as `floor(Math.random() * n)` from the global source. -/
def MathRandom.randint (m : MathRandom) (n : ℕ) : ℤ × MathRandom :=
  let (u, m1) := m.random
  (⌊u * (n : ℚ)⌋, m1)

/-- `Space.seed(seed?)` from `spaces/space.ts`, exactly as written: the body
is `return [Math.random()]` — the argument is ignored, no source is installed
on the space, and the returned list holds one fresh global draw. -/
def Space.seed (seed : Option ℕ) (m : MathRandom) : List ℚ × MathRandom :=
  let (u, m1) := m.random
  ([u], m1)

/-- `Discrete.sample()` from `spaces/discrete.ts`: `Math.randint(this.n)`,
drawn from the global `Math` source, not from a space-owned one. -/
def Discrete.sample (n : ℕ) (m : MathRandom) : ℤ × MathRandom :=
  m.randint n

/-- The closed set of `Space` variants, as far as `GoalEnv.reset` inspects
them: `Discrete(n)`, `Box`, or `Dict` with its key set. -/
inductive SpaceT where
  | discrete (n : ℕ)
  | box
  | dict (keys : List String)
deriving Repr, DecidableEq

/-- The keys `GoalEnv.reset` requires of the observation dictionary. -/
def requiredGoalKeys : List String := ["observation", "achieved_goal", "desired_goal"]

/-- Error raised when the observation space is not a `Dict`. -/
def goalDictError : String :=
  "GoalEnv requires an observation space of type gym.spaces.Dict"

/-- Error raised for a missing key, naming the key. -/
def goalKeyError (k : String) : String :=
  "GoalEnv requires the \"" ++ k ++ "\" key to be part of the observation dictionary"

/-- The `for (const key of [...])` loop of `GoalEnv.reset`: throw on the first
required key absent from the dictionary. -/
def checkGoalKeys : List String → List String → Except String Unit
  | [], _ => .ok ()
  | k :: ks, keys =>
      if k ∈ keys then checkGoalKeys ks keys else .error (goalKeyError k)

/-- `GoalEnv.reset()`: require a `Dict` observation space carrying the three
goal keys, then return the (empty) observation `array1d([])`. -/
def goalEnvReset (obsSpace : Option SpaceT) : Except String (List ℕ) :=
  match obsSpace with
  | some (SpaceT.dict keys) =>
    match checkGoalKeys requiredGoalKeys keys with
    | .ok _ => .ok []
    | .error m => .error m
  | _ => .error goalDictError

/-- The protocol of an `Env` over an explicit state type: the six methods a
`Wrapper` forwards. `render` takes the mode, `computeReward` the two goals
and the info payload (the base class throws, so it is fallible). -/
structure EnvI (σ : Type) where
  step : σ → ℤ → Except String StepResult × σ
  reset : σ → List ℕ × σ
  render : σ → String → Except String String × σ
  seed : σ → Option ℕ → List ℕ × σ
  close : σ → σ
  computeReward : σ → ℚ → ℚ → ℚ → Except String ℚ

/-- The plain `Wrapper` with nothing overridden: every method body is the
same call on `this.env`. -/
def plainWrapper {σ : Type} (env : EnvI σ) : EnvI σ where
  step s a := env.step s a
  reset s := env.reset s
  render s m := env.render s m
  seed s k := env.seed s k
  close s := env.close s
  computeReward s a d i := env.computeReward s a d i

/-- `RewardWrapper` with reward hook `f`: `step` destructures the inner step
result and rebuilds it with `reward: this.reward(reward)`; `reset` is
`this.env.reset(args)` unchanged. -/
def rewardWrapper {σ : Type} (f : ℚ → ℚ) (env : EnvI σ) : EnvI σ :=
  { plainWrapper env with
    step := fun s a =>
      let (res, s') := env.step s a
      (res.map (fun st => { st with reward := f st.reward }), s'),
    reset := fun s => env.reset s }

/-- An environment object as the `unwrapped` accessor sees it: a base `Env`
(identified by a tag) or a `Wrapper` holding one inner environment. -/
inductive EnvObj where
  | base (tag : ℕ)
  | wrapper (inner : EnvObj)
deriving Repr, DecidableEq

/-- `unwrapped`: the base `Env` returns `this`, a `Wrapper` recurses into
`this.env.unwrapped`. -/
def unwrapped : EnvObj → EnvObj
  | .base t => .base t
  | .wrapper e => unwrapped e

/-- A stack of `n` wrappers around an environment. -/
def wrapStack : ℕ → EnvObj → EnvObj
  | 0, e => e
  | n + 1, e => .wrapper (wrapStack n e)

/-- Construction arguments: a string-keyed object literal (values ℤ). -/
abbrev Args := List (String × ℤ)

/-- Property lookup on an argument object. -/
def lookupArg (a : Args) (k : String) : Option ℤ :=
  (a.find? (fun kv => kv.1 == k)).map (·.2)

/-- `Object.assign({ }, defaults, overrides)`: keys of both, overrides win. -/
def mergeArgs (defaults overrides : Args) : Args :=
  defaults.filter (fun kv => !(overrides.any (fun kv2 => kv2.1 == kv.1))) ++ overrides

/-- `EnvSpec`: identifier, entry point and default construction args. -/
structure EnvSpecL (Inst : Type) where
  id : String
  entryPoint : Args → Inst
  args : Args

/-- `EnvSpec.make(args)`: construct via the entry point on
`Object.assign({ }, this.args, args)`. -/
def EnvSpecL.make {Inst : Type} (spec : EnvSpecL Inst) (args : Args) : Inst :=
  spec.entryPoint (mergeArgs spec.args args)

/-- `EnvRegistry`: the `envSpecs` key-value store, insertion ordered. -/
structure EnvRegistry (Inst : Type) where
  envSpecs : List (String × EnvSpecL Inst)

/-- `EnvRegistry.spec(id)`: `this.envSpecs[id]`, `undefined` when absent. -/
def EnvRegistry.spec {Inst : Type} (r : EnvRegistry Inst) (id : String) :
    Option (EnvSpecL Inst) :=
  (r.envSpecs.find? (fun kv => kv.1 == id)).map (·.2)

/-- `EnvRegistry.register(id, args)`: throw if `this.envSpecs[id]` is already
set (an `EnvSpec` object is always truthy), else store and return the spec. -/
def EnvRegistry.register {Inst : Type} (r : EnvRegistry Inst) (id : String)
    (entryPoint : Args → Inst) (args : Args) :
    Except String (EnvSpecL Inst × EnvRegistry Inst) :=
  match r.spec id with
  | some _ => .error ("Cannot re-register id: " ++ id)
  | none =>
    let sp : EnvSpecL Inst := ⟨id, entryPoint, args⟩
    .ok (sp, ⟨r.envSpecs ++ [(id, sp)]⟩)

/-- `EnvRegistry.make(path, args?)`: `this.spec(path)?.make(args)` —
optional chaining, so an unknown id yields `undefined`, no throw. -/
def EnvRegistry.make {Inst : Type} (r : EnvRegistry Inst) (id : String)
    (args : Args) : Option Inst :=
  (r.spec id).map (fun sp => sp.make args)

/-- Weight vector for the sampling counterexample. -/
def pC1 : List ℚ := [2/10, 3/10, 5/10]

/-- Uniform stream for the sampling counterexample: draws 3/10, 6/10, 0, 0, … -/
def uC1 : ℕ → ℚ := fun i => if i = 0 then 3/10 else if i = 1 then 6/10 else 0

/-- The random source at the start of the counterexample run. -/
def rC1 : Random := ⟨uC1, 0⟩

/-- C1: the claim says the sampler draws exactly one uniform variate and
returns the first index whose cumulative sum exceeds it. The source instead
calls `random.real()` inside the `map` closure, once per outcome: on weights
`[0.2, 0.3, 0.5]` with uniform stream `0.3, 0.6, 0, …` the code consumes three
draws and returns index 2, while the one-draw inverse-CDF sampler of the claim
consumes one draw and returns index 1. -/
theorem categoricalSample_one_draw_per_element :
    (categoricalSample pC1 rC1).1 = 2 ∧ (categoricalSample pC1 rC1).2.pos = 3 ∧
      (inverseCdfSample pC1 rC1).1 = 1 ∧ (inverseCdfSample pC1 rC1).2.pos = 1 := by
  norm_num [categoricalSample, inverseCdfSample, cumsum, cumsumFrom, mapIndicator,
    Random.real, argmax, argmaxFrom, pC1, uC1, rC1, List.findIdx, List.findIdx.go]

/-- C3: when `P[s][action]` is defined and the sampled index is in range,
`step(action)` destructures `(p, nextState, reward, done)` at the sampled
index, sets `s = nextState` and `lastAction = action`, and returns observation
`[nextState]`, the sampled reward and done flag, and an info record whose
probability field equals `p`. -/
theorem discreteEnv_step_follows_transition (e : DiscreteEnvState) (a : ℤ)
    (row : List (List Outcome)) (transitions : List Outcome) (o : Outcome)
    (hrow : e.P.get? e.s = some row)
    (ha : jsIndex row a = some transitions)
    (hi : transitions.get? (categoricalSample (transitions.map (·.p)) e.random).1
            = some o) :
    e.step a =
      (Except.ok { observation := [o.nextState], reward := o.reward, done := o.done,
                   info := ⟨o.p⟩ },
       { e with s := o.nextState, lastAction := some a,
                random := (categoricalSample (transitions.map (·.p)) e.random).2 }) := by
  unfold DiscreteEnvState.step
  rw [hrow]
  simp only [ha, hi]

/-- Witness for C3: a two-state chain where action 0 moves deterministically
from state 0 to state 1 with reward 5. -/
def eC3 : DiscreteEnvState :=
  { nS := 2, nA := 1,
    P := [[[⟨1, 1, 5, true⟩]], [[⟨1, 1, 0, true⟩]]],
    isd := [1, 0], random := ⟨fun _ => 1/2, 0⟩, lastAction := none, s := 0 }

theorem discreteEnv_step_follows_transition_witness :
    eC3.step 0 =
      (Except.ok { observation := [1], reward := 5, done := true, info := ⟨1⟩ },
       { eC3 with s := 1, lastAction := some 0,
                  random := (categoricalSample [1] eC3.random).2 }) :=
  discreteEnv_step_follows_transition eC3 0 [[⟨1, 1, 5, true⟩]] [⟨1, 1, 5, true⟩]
    ⟨1, 1, 5, true⟩ rfl rfl (by norm_num [categoricalSample, cumsum, cumsumFrom,
      mapIndicator, Random.real, argmax, argmaxFrom, eC3])

/-- C5: an action outside `Discrete(nA)` makes `step` raise immediately
(the `undefined` lookup throws before any assignment), leaving the current
state `s` and `lastAction` unchanged. The hypothesis ties the row length to
`nA`, the documented shape of `P`. -/
theorem discreteEnv_step_invalid_action (e : DiscreteEnvState) (a : ℤ)
    (row : List (List Outcome))
    (hrow : e.P.get? e.s = some row) (hlen : row.length = e.nA)
    (ha : Discrete.contains e.nA a = false) :
    ∃ msg, e.step a = (Except.error msg, e) := by
  have hj : jsIndex row a = none := by
    unfold jsIndex
    rcases lt_or_le a 0 with h | h
    · simp [h]
    · have h1 : ¬ a < (e.nA : ℤ) := by
        simp only [Discrete.contains, Bool.and_eq_false_iff, decide_eq_false_iff_not,
          not_le, not_lt] at ha
        rcases ha with h' | h'
        · exact absurd h (not_le.mpr h')
        · exact not_lt.mpr h'
      have h2 : row.length ≤ a.toNat := by
        rw [hlen]
        omega
      rw [if_neg (not_lt.mpr h)]
      exact List.get?_eq_none.mpr h2
  refine ⟨"TypeError: transitions is undefined", ?_⟩
  unfold DiscreteEnvState.step
  rw [hrow]
  simp only [hj]

/-- C2: replaying the same finite action sequence after seeding with the same
seed yields identical traces, through any stack of pure-function wrappers.
The two runs may start from arbitrarily different histories (different current
state, last action and random source, as left by construction-time entropy);
`seed(k)` followed by the episode's `reset()` erases all of it, so only the
fixed `nS`, `nA`, `P`, `isd` and the seed determine the trace. -/
theorem discreteEnv_deterministic (g : ℕ → ℕ → ℚ) (stack : List PureWrapper)
    (e1 e2 : DiscreteEnvState) (k : ℕ) (acts : List ℤ)
    (hS : e1.nS = e2.nS) (hA : e1.nA = e2.nA)
    (hP : e1.P = e2.P) (hisd : e1.isd = e2.isd) :
    wrappedTrajectory g stack e1 k acts = wrappedTrajectory g stack e2 k acts := by
  have ht : trajectory g e1 k = trajectory g e2 k := by
    funext as
    obtain ⟨nS1, nA1, P1, isd1, r1, la1, s1⟩ := e1
    obtain ⟨nS2, nA2, P2, isd2, r2, la2, s2⟩ := e2
    dsimp only at hS hA hP hisd
    subst hS hA hP hisd
    rfl
  unfold wrappedTrajectory
  rw [ht]

/-- Transition table of the determinism witness: two states, one action;
from either state, move to the other with probability 1. -/
def pW : List (List (List Outcome)) :=
  [[[⟨1, 1, 0, false⟩]], [[⟨1, 0, 1, true⟩]]]

/-- A pure wrapper layer for the determinism witness: identity on actions and
observations, reward shifted by one. -/
def wW : PureWrapper := ⟨fun a => a, fun o => o, fun r => r + 1⟩

/-- PRNG family for the determinism witness. -/
def gW : ℕ → ℕ → ℚ := fun k i => 1 / (k + i + 2)

/-- First run of the determinism witness: fresh-looking environment. -/
def eW1 : DiscreteEnvState :=
  { nS := 2, nA := 1, P := pW, isd := [1/2, 1/2],
    random := ⟨fun _ => 0, 0⟩, lastAction := none, s := 0 }

/-- Second run of the determinism witness: same `P`/`isd` but a different
construction-time source, last action and current state. -/
def eW2 : DiscreteEnvState :=
  { nS := 2, nA := 1, P := pW, isd := [1/2, 1/2],
    random := ⟨fun i => 1 / (i + 3), 7⟩, lastAction := some 0, s := 1 }

theorem discreteEnv_deterministic_witness :
    eW1.nS = eW2.nS ∧ eW1.nA = eW2.nA ∧ eW1.P = eW2.P ∧ eW1.isd = eW2.isd ∧
      wrappedTrajectory gW [wW] eW1 5 [0, 0, 0] =
        wrappedTrajectory gW [wW] eW2 5 [0, 0, 0] :=
  ⟨rfl, rfl, rfl, rfl,
   discreteEnv_deterministic gW [wW] eW1 eW2 5 [0, 0, 0] rfl rfl rfl rfl⟩

theorem discreteEnv_step_invalid_action_witness :
    Discrete.contains eC3.nA 1 = false ∧
      ∃ msg, eC3.step 1 = (Except.error msg, eC3) :=
  ⟨by decide, discreteEnv_step_invalid_action eC3 1 [[⟨1, 1, 5, true⟩]] rfl rfl
    (by decide)⟩

/-- C6: `GoalEnv.reset` raises when the observation space is not a `Dict`;
when a required key is absent it raises an error naming a missing key; and
when the `Dict` holds exactly the keys `observation`, `achieved_goal`,
`desired_goal` it does not raise. -/
theorem goalEnvReset_checks_observation_space :
    (goalEnvReset none = Except.error goalDictError ∧
      (∀ n, goalEnvReset (some (SpaceT.discrete n)) = Except.error goalDictError) ∧
      goalEnvReset (some SpaceT.box) = Except.error goalDictError) ∧
    (∀ keys : List String, (∃ k ∈ requiredGoalKeys, k ∉ keys) →
      ∃ k ∈ requiredGoalKeys, k ∉ keys ∧
        goalEnvReset (some (SpaceT.dict keys)) = Except.error (goalKeyError k)) ∧
    (∀ keys : List String, (∀ k, k ∈ keys ↔ k ∈ requiredGoalKeys) →
      goalEnvReset (some (SpaceT.dict keys)) = Except.ok []) := by
  refine ⟨⟨rfl, fun n => rfl, rfl⟩, ?_, ?_⟩
  · intro keys hmiss
    by_cases h1 : "observation" ∈ keys
    · by_cases h2 : "achieved_goal" ∈ keys
      · by_cases h3 : "desired_goal" ∈ keys
        · exfalso
          rcases hmiss with ⟨k, hk, hnot⟩
          simp only [requiredGoalKeys, List.mem_cons, List.mem_singleton,
            List.not_mem_nil, or_false] at hk
          rcases hk with rfl | rfl | rfl <;> exact hnot (by assumption)
        · exact ⟨"desired_goal", by simp [requiredGoalKeys], h3,
            by simp [goalEnvReset, checkGoalKeys, requiredGoalKeys, h1, h2, h3]⟩
      · exact ⟨"achieved_goal", by simp [requiredGoalKeys], h2,
          by simp [goalEnvReset, checkGoalKeys, requiredGoalKeys, h1, h2]⟩
    · exact ⟨"observation", by simp [requiredGoalKeys], h1,
        by simp [goalEnvReset, checkGoalKeys, requiredGoalKeys, h1]⟩
  · intro keys hiff
    have h1 : "observation" ∈ keys := (hiff _).mpr (by simp [requiredGoalKeys])
    have h2 : "achieved_goal" ∈ keys := (hiff _).mpr (by simp [requiredGoalKeys])
    have h3 : "desired_goal" ∈ keys := (hiff _).mpr (by simp [requiredGoalKeys])
    simp [goalEnvReset, checkGoalKeys, requiredGoalKeys, h1, h2, h3]

theorem goalEnvReset_checks_observation_space_witness :
    (∃ k ∈ requiredGoalKeys, k ∉ (["observation", "desired_goal"] : List String) ∧
      goalEnvReset (some (SpaceT.dict ["observation", "desired_goal"])) =
        Except.error (goalKeyError k)) ∧
    goalEnvReset
        (some (SpaceT.dict ["desired_goal", "achieved_goal", "observation"])) =
      Except.ok [] :=
  ⟨goalEnvReset_checks_observation_space.2.1 ["observation", "desired_goal"]
      ⟨"achieved_goal", by decide, by decide⟩,
   goalEnvReset_checks_observation_space.2.2
      ["desired_goal", "achieved_goal", "observation"]
      (by intro k; simp only [requiredGoalKeys, List.mem_cons, List.not_mem_nil,
            or_false]; tauto)⟩

/-- C7: a `Wrapper` that overrides nothing forwards every protocol call —
`step`, `reset`, `render`, `seed`, `close`, `computeReward` — to the wrapped
environment with the same arguments and the same result; and `unwrapped` on
any stack of wrappers yields the base environment regardless of depth. -/
theorem wrapper_is_identity_and_unwrapped_reaches_base :
    (∀ (σ : Type) (env : EnvI σ) (s : σ) (a : ℤ) (m : String) (k : Option ℕ)
        (x y z : ℚ),
      (plainWrapper env).step s a = env.step s a ∧
      (plainWrapper env).reset s = env.reset s ∧
      (plainWrapper env).render s m = env.render s m ∧
      (plainWrapper env).seed s k = env.seed s k ∧
      (plainWrapper env).close s = env.close s ∧
      (plainWrapper env).computeReward s x y z = env.computeReward s x y z) ∧
    (∀ (n t : ℕ), unwrapped (wrapStack n (EnvObj.base t)) = EnvObj.base t) := by
  constructor
  · intro σ env s a m k x y z
    exact ⟨rfl, rfl, rfl, rfl, rfl, rfl⟩
  · intro n t
    induction n with
    | zero => rfl
    | succ n ih => simpa [wrapStack, unwrapped] using ih

/-- C8: `RewardWrapper.step` applies the reward hook to the reward component
only — observation, done and info come back unchanged (and a raised inner
error propagates unchanged) — and `RewardWrapper.reset` returns the inner
reset result unchanged. -/
theorem rewardWrapper_transforms_only_reward {σ : Type} (f : ℚ → ℚ)
    (env : EnvI σ) (s : σ) (a : ℤ) :
    (∀ st s', env.step s a = (Except.ok st, s') →
      (rewardWrapper f env).step s a =
        (Except.ok { observation := st.observation, reward := f st.reward,
                     done := st.done, info := st.info }, s')) ∧
    (∀ m s', env.step s a = (Except.error m, s') →
      (rewardWrapper f env).step s a = (Except.error m, s')) ∧
    (rewardWrapper f env).reset s = env.reset s := by
  refine ⟨?_, ?_, rfl⟩
  · intro st s' h
    simp [rewardWrapper, h, Except.map]
  · intro m s' h
    simp [rewardWrapper, h, Except.map]

/-- A concrete environment for the reward-wrapper witness: the state counts
the steps taken, the reward echoes the action. -/
def envW : EnvI ℕ :=
  { step := fun s a => (Except.ok ⟨[s], (a : ℚ), false, ⟨1⟩⟩, s + 1),
    reset := fun _ => ([0], 0),
    render := fun s _ => (Except.error "not supported", s),
    seed := fun s _ => ([0], s),
    close := fun s => s,
    computeReward := fun _ _ _ _ => Except.error "computeReward is unimplemented" }

theorem rewardWrapper_transforms_only_reward_witness :
    (rewardWrapper (fun r => r + 1) envW).step 0 2 =
      (Except.ok { observation := [0], reward := (2 : ℚ) + 1, done := false,
                   info := ⟨1⟩ }, 1) ∧
    (rewardWrapper (fun r => r + 1) envW).reset 0 = envW.reset 0 :=
  ⟨(rewardWrapper_transforms_only_reward (fun r => r + 1) envW 0 2).1
      ⟨[0], 2, false, ⟨1⟩⟩ 1 rfl,
   (rewardWrapper_transforms_only_reward (fun r => r + 1) envW 0 2).2.2⟩

/-- Global `Math` stream for the `Space.seed` counterexample:
draws 0, 0, 0, 3/4, 0, … -/
def gC4 : ℕ → ℚ := fun i => if i = 3 then 3/4 else 0

/-- C4: the claim says `seed(seed?)` installs a space-owned source derived
from the supplied seed, so equal spaces seeded alike sample alike. The source
instead ignores the seed (`return [Math.random()]`) and `Discrete.sample`
draws from the global `Math` source: seeding with 42 and with 7 (and with no
seed at all) returns the same value, and two `Discrete(2)` spaces — equal by
`Discrete.equal` — both seeded with 42 but constructed at different global
cursor positions sample 0 and 1 respectively. -/
theorem space_seed_ignores_seed :
    Space.seed (some 42) ⟨gC4, 0⟩ = Space.seed (some 7) ⟨gC4, 0⟩ ∧
      Space.seed none ⟨gC4, 0⟩ = Space.seed (some 42) ⟨gC4, 0⟩ ∧
      Discrete.equal 2 2 = true ∧
      (Discrete.sample 2 (Space.seed (some 42) ⟨gC4, 0⟩).2).1 = 0 ∧
      (Discrete.sample 2 (Space.seed (some 42) ⟨gC4, 2⟩).2).1 = 1 := by
  refine ⟨rfl, rfl, rfl, ?_, ?_⟩ <;>
    norm_num [Discrete.sample, MathRandom.randint, MathRandom.random, Space.seed,
      gC4, Int.floor_eq_iff]

/-- C9: on a fresh identifier, `register` succeeds and stores the spec; a
second `register` of the same identifier raises and the first registration
stays in place; `make` then constructs via the entry point on the defaults
merged under the overrides. -/
theorem register_rejects_duplicates_and_make_merges {Inst : Type}
    (r : EnvRegistry Inst) (id : String) (ep : Args → Inst) (a : Args)
    (hfresh : r.spec id = none) :
    ∃ sp r', r.register id ep a = Except.ok (sp, r') ∧
      (∀ (ep2 : Args → Inst) (a2 : Args),
        r'.register id ep2 a2 = Except.error ("Cannot re-register id: " ++ id)) ∧
      r'.spec id = some sp ∧
      ∀ o, r'.make id o = some (ep (mergeArgs a o)) := by
  have hfind : r.envSpecs.find? (fun kv => kv.1 == id) = none := by
    unfold EnvRegistry.spec at hfresh
    cases h : r.envSpecs.find? (fun kv => kv.1 == id) with
    | none => rfl
    | some kv => rw [h] at hfresh; simp at hfresh
  refine ⟨⟨id, ep, a⟩, ⟨r.envSpecs ++ [(id, ⟨id, ep, a⟩)]⟩, ?_, ?_, ?_, ?_⟩
  · unfold EnvRegistry.register
    rw [hfresh]
  · intro ep2 a2
    unfold EnvRegistry.register EnvRegistry.spec
    rw [List.find?_append, hfind]
    simp [List.find?]
  · unfold EnvRegistry.spec
    rw [List.find?_append, hfind]
    simp [List.find?]
  · intro o
    unfold EnvRegistry.make EnvRegistry.spec
    rw [List.find?_append, hfind]
    simp [List.find?, EnvSpecL.make]

/-- The empty registry, instantiated at `Inst = Args`, for the witness. -/
def regC9 : EnvRegistry Args := ⟨[]⟩

theorem register_rejects_duplicates_and_make_merges_witness :
    regC9.spec "FrozenLake-v0" = none ∧
      ∃ sp r', regC9.register "FrozenLake-v0"
          (fun x => x) [("mapName", 4)] = Except.ok (sp, r') ∧
        (∀ (ep2 : Args → Args) (a2 : Args),
          r'.register "FrozenLake-v0" ep2 a2 =
            Except.error ("Cannot re-register id: " ++ "FrozenLake-v0")) ∧
        r'.spec "FrozenLake-v0" = some sp ∧
        ∀ o, r'.make "FrozenLake-v0" o =
          some (mergeArgs [("mapName", 4)] o) :=
  ⟨rfl, register_rejects_duplicates_and_make_merges regC9 "FrozenLake-v0"
    (fun x => x) [("mapName", 4)] rfl⟩

/-- C10: for an identifier never registered, `spec` returns `undefined` and
`make` (through its optional chaining) returns `undefined` too — a silent
lookup failure, no raise. -/
theorem unregistered_id_is_silent {Inst : Type} (r : EnvRegistry Inst)
    (id : String) (h : ∀ kv ∈ r.envSpecs, kv.1 ≠ id) :
    r.spec id = none ∧ ∀ a, r.make id a = none := by
  have hfind : r.envSpecs.find? (fun kv => kv.1 == id) = none :=
    List.find?_eq_none.mpr (by simpa using h)
  constructor
  · unfold EnvRegistry.spec
    rw [hfind]
    rfl
  · intro a
    unfold EnvRegistry.make EnvRegistry.spec
    rw [hfind]
    rfl

/-- A one-entry registry, instantiated at `Inst = Args`, for the witness. -/
def regC10 : EnvRegistry Args := ⟨[("CartPole-v0", ⟨"CartPole-v0", fun x => x, []⟩)]⟩

theorem unregistered_id_is_silent_witness :
    regC10.spec "Pendulum-v0" = none ∧
      ∀ a, regC10.make "Pendulum-v0" a = none :=
  unregistered_id_is_silent regC10 "Pendulum-v0" (by simp [regC10])

end Gym
